import Mathlib

/-!
# procsweeper: the game controller of `src/main.c`

A shallow embedding of `main.c`: the command-line parser `parse_cli`, the
filter predicate `procfilter`, the per-cell rendering of the board, the
`switch (getch())` key handler and the `while (run)` loop.

The board engine (`board.h`), the process subsystem (`proc.h`) and the colour
helper (`util.h`) are not part of `main.c`; every function of theirs that
`main.c` calls is a field of `Env`, so each theorem holds for every possible
behaviour of those collaborators.  Every call that the controller makes to a
collaborator or to ncurses is recorded, in program order, in a list of `Call`.

C `int` values are `Int`; the cursor never leaves `[-1, width]`, so no signed
overflow occurs for a board whose dimensions are `int` values.
-/

namespace Procsweeper

/-! ## Constants -/

/-- The integer value of a C character constant. -/
def ord (c : Char) : Int := Int.ofNat c.toNat

def BOARD_WIDTH : Int := 80
def BOARD_HEIGHT : Int := 40

def SYM_EMPTY : Int := ord '.'
def SYM_MINE : Int := ord 'X'
def SYM_UNKNOWN : Int := ord '?'
def SYM_UNTURNED : Int := ord '#'

/-- Signal numbers of `<signal.h>`. -/
def SIGINT : Int := 2
def SIGKILL : Int := 9

/-- Colour numbers of `<ncurses.h>`. -/
def COLOR_BLACK : Int := 0
def COLOR_RED : Int := 1
def COLOR_GREEN : Int := 2
def COLOR_YELLOW : Int := 3
def COLOR_BLUE : Int := 4
def COLOR_WHITE : Int := 7

/-! ## Data model -/

/-- The bit masks `TILE_MINE`, `TILE_TURNED` and `TILE_FLAG` of `board.h`.  The header is
not among the sources, so the three masks are parameters. -/
structure TileMasks where
  TILE_MINE : Nat
  TILE_TURNED : Nat
  TILE_FLAG : Nat

/-- The fields of `proc_t` that `main.c` reads.  `cmdline` is a nullable vector of
strings, `cmd` the short command name. -/
structure proc_t where
  tgid : Int
  euid : Nat
  cmdline : Option (List String)
  cmd : String
deriving DecidableEq, Repr

/-- The fields of `board_t` that `main.c` reads, `width` and `height`; the grid itself
belongs to the board engine and is the type parameter `G`. -/
structure board_t (G : Type) where
  width : Int
  height : Int
  cells : G

/-- The global variables of `main.c`. -/
structure Globals where
  mode_initonly : Int
  mode_nokill : Int
  mode_system : Int
  kill_signal : Int
deriving DecidableEq, Repr

/-- The initial values of the globals (lines 23-26). -/
def initial_globals : Globals :=
  { mode_initonly := 0, mode_nokill := 0, mode_system := 0, kill_signal := SIGINT }

/-- An argument of a `printf`-style call. -/
inductive PrintArg where
  | int (v : Int)
  | str (s : Option String)
deriving DecidableEq, Repr

/-- One call made by the controller to a collaborator or to ncurses. -/
inductive Call where
  | board_get_tile (x y : Int)
  | board_get_adjacent_mine_count (x y : Int)
  | util_color_get (f b : Int)
  | attron (col : Int)
  | attroff (col : Int)
  | mvaddch (y x : Int) (sym : Int)
  | mvprintw (y x : Int) (fmt : String) (args : List PrintArg)
  | refresh
  | getch
  | board_toggle_flagged (x y : Int)
  | board_turn_tiles (x y : Int)
  | proc_get_random
  | erase
  | proc_kill (proc : proc_t) (sig : Int)
deriving DecidableEq, Repr

/-- The collaborators of `main.c`.  `G` is the grid of the board engine, `W` the state
of the outside world (process table, random generator), `K` whatever `proc_kill`
reports.  The board is a local variable of `main` whose address is passed to the
`board_*` functions only, so the `proc_*` functions act on the world alone. -/
structure Env (G W K : Type) where
  masks : TileMasks
  util_color_get : Int → Int → Int
  board_get_tile : board_t G → Int → Int → Nat
  board_get_adjacent_mine_count : board_t G → Int → Int → Int
  board_toggle_flagged : board_t G → Int → Int → board_t G
  board_turn_tiles : board_t G → Int → Int → board_t G × Nat
  proc_get_random : W → Option proc_t × W
  proc_kill : W → proc_t → Int → K × W

/-- The local variables of `main` together with the state of the world. -/
structure Game (G W : Type) where
  cur_x : Int
  cur_y : Int
  board : board_t G
  run : Bool
  world : W

/-! ## `parse_cli` (lines 166-199) -/

/-- One iteration of the `switch (c)` of `parse_cli`; `Except.error 1` is `exit(1)`. -/
def parse_opt (geteuid : Nat) (g : Globals) (c : Int) : Except Int Globals :=
  if c = ord 'h' then
    let g1 := { g with mode_initonly := 1 }
    if geteuid ≠ 0 then Except.error 1 else Except.ok g1
  else if c = ord 't' then
    Except.ok { g with mode_nokill := 1 }
  else if c = ord 'k' then
    Except.ok { g with kill_signal := SIGKILL }
  else if c = ord 's' then
    let g1 := { g with mode_system := 1 }
    if geteuid ≠ 0 then Except.error 1 else Except.ok g1
  else
    Except.ok g

/-- The loop of `parse_cli`; `opts` are the values that `getopt_long` returns before it
returns `-1`. -/
def parse_cli (geteuid : Nat) : List Int → Globals → Except Int Globals
  | [], g => Except.ok g
  | c :: cs, g =>
    match parse_opt geteuid g c with
    | Except.error code => Except.error code
    | Except.ok g1 => parse_cli geteuid cs g1

/-! ## `procfilter` (lines 222-230) -/

/-- The filter predicate; the result is a C truth value. -/
def procfilter (g : Globals) (geteuid : Nat) (proc : proc_t) : Int :=
  if g.mode_system ≠ 0 then
    1
  else if g.mode_initonly ≠ 0 then
    (if proc.tgid = 1 then 1 else 0)
  else
    (if proc.euid = geteuid then 1 else 0)

/-! ## Rendering (lines 45-101) -/

/-- Conversion of an `int` to a (signed, 8 bit) `char`. -/
def to_char (v : Int) : Int := (v + 128) % 256 - 128

/-- Lines 48-81: symbol, foreground and background of one cell, from its tile value,
the adjacent mine count (read in the last branch only) and whether the cursor is on
the cell.  The initial value `SYM_UNKNOWN` of `sym` is overwritten on each of the four
paths, so it does not appear. -/
def cell_look (m : TileMasks) (tile : Nat) (adjmines : Int) (x y cur_x cur_y : Int) :
    Int × Int × Int :=
  let col_f := COLOR_WHITE
  let col_b := COLOR_BLACK
  let r : Int × Int × Int :=
    if ¬ (tile &&& m.TILE_TURNED ≠ 0) then
      (SYM_UNTURNED, col_f, if tile &&& m.TILE_FLAG ≠ 0 then COLOR_RED else col_b)
    else if tile &&& m.TILE_MINE ≠ 0 then
      (SYM_MINE, COLOR_RED, col_b)
    else if adjmines > 0 then
      (to_char (ord '0' + adjmines), if adjmines = 1 then COLOR_BLUE else COLOR_YELLOW, col_b)
    else
      (SYM_EMPTY, col_f, col_b)
  if x = cur_x ∧ y = cur_y then
    (r.1, if r.2.2 ≠ COLOR_BLACK then r.2.2 else r.2.1, COLOR_WHITE)
  else
    (r.1, r.2.1, r.2.2)

/-- The body of the inner `for` loop (lines 47-85) with the calls it makes;
`board_get_adjacent_mine_count` is called for a turned tile without a mine only. -/
def render_cell {G W K : Type} (env : Env G W K) (s : Game G W) (x y : Int) : List Call :=
  let tile := env.board_get_tile s.board x y
  let needs_count : Bool :=
    decide (tile &&& env.masks.TILE_TURNED ≠ 0) && decide (¬ (tile &&& env.masks.TILE_MINE ≠ 0))
  let adjmines := env.board_get_adjacent_mine_count s.board x y
  let look := cell_look env.masks tile adjmines x y s.cur_x s.cur_y
  let col := env.util_color_get look.2.1 look.2.2
  [Call.board_get_tile x y]
    ++ (if needs_count then [Call.board_get_adjacent_mine_count x y] else [])
    ++ [Call.util_color_get look.2.1 look.2.2, Call.attron col, Call.mvaddch y x look.1,
        Call.attroff col]

/-- The integers `0, 1, ..., n - 1` of a `for (int i = 0; i < n; i++)` loop. -/
def upto (n : Int) : List Int := (List.range n.toNat).map Int.ofNat

/-- The two nested `for` loops (lines 45-87). -/
def render_board {G W K : Type} (env : Env G W K) (s : Game G W) : List Call :=
  (upto s.board.width).flatMap fun x =>
    (upto s.board.height).flatMap fun y => render_cell env s x y

/-- The mode lines (lines 89-99). -/
def render_status {G W K : Type} (env : Env G W K) (g : Globals) (s : Game G W) : List Call :=
  let col_ok := env.util_color_get COLOR_GREEN COLOR_BLACK
  let col_bad := env.util_color_get COLOR_RED COLOR_BLACK
  let row0 : Int := 1
  let p1 := if g.mode_nokill ≠ 0 then
      ([Call.mvprintw row0 (s.board.width + 2) "testing" []], row0 + 1) else ([], row0)
  let p2 := if g.mode_system ≠ 0 then
      ([Call.mvprintw p1.2 (s.board.width + 2) "system" []], p1.2 + 1) else ([], p1.2)
  let p3 := if g.mode_initonly ≠ 0 then
      ([Call.mvprintw p2.2 (s.board.width + 2) "hardcore" []], p2.2 + 1) else ([], p2.2)
  let p4 := if g.kill_signal = SIGKILL then
      ([Call.mvprintw p3.2 (s.board.width + 2) "sigkill" []], p3.2 + 1) else ([], p3.2)
  [Call.util_color_get COLOR_GREEN COLOR_BLACK, Call.util_color_get COLOR_RED COLOR_BLACK,
    Call.attron col_ok] ++ p1.1 ++ [Call.attroff col_ok, Call.attron col_bad]
    ++ p2.1 ++ p3.1 ++ p4.1 ++ [Call.attroff col_bad]

/-- Everything one iteration of the loop does before the key is handled
(lines 45-104). -/
def render {G W K : Type} (env : Env G W K) (g : Globals) (s : Game G W) : List Call :=
  render_board env s ++ render_status env g s ++ [Call.refresh, Call.getch]

/-! ## The key handler (lines 103-158) -/

/-- The `case 'x'` branch once `board_turn_tiles` has returned a mine tile and
`proc_get_random` has returned (lines 130-155). -/
def on_mine {G W K : Type} (env : Env G W K) (g : Globals) (s : Game G W)
    (sel : Option proc_t × W) : Game G W × List Call :=
  match sel with
  | (none, w) =>
    ({ s with world := w },
      [Call.proc_get_random,
       Call.mvprintw (s.board.height + 1) 2 "Out of processes to kill!" []])
  | (some proc, w) =>
    let cmd : Option String :=
      match proc.cmdline with
      | some v => v.head?
      | none => some proc.cmd
    let col := env.util_color_get COLOR_RED COLOR_BLACK
    let msg := if g.mode_nokill ≠ 0 then "(Pretending)" else "Too bad!"
    let shown :=
      [Call.proc_get_random, Call.erase, Call.util_color_get COLOR_RED COLOR_BLACK,
       Call.attron col,
       Call.mvprintw (s.board.height + 1) 2 msg [],
       Call.mvprintw (s.board.height + 2) 2 "Killing %d, %s"
         [PrintArg.int proc.tgid, PrintArg.str cmd],
       Call.attroff col]
    if ¬ (g.mode_nokill ≠ 0) then
      ({ s with world := (env.proc_kill w proc g.kill_signal).2 },
        shown ++ [Call.proc_kill proc g.kill_signal])
    else
      ({ s with world := w }, shown)

/-- The `switch (getch())` statement: the state after the key `c` and the calls made. -/
def handle_key {G W K : Type} (env : Env G W K) (g : Globals) (c : Int) (s : Game G W) :
    Game G W × List Call :=
  if c = ord 'q' then
    ({ s with run := false }, [])
  else if c = ord 'h' then
    let cur_x := s.cur_x - 1
    ({ s with cur_x := if cur_x < 0 then 0 else cur_x }, [])
  else if c = ord 'j' then
    let cur_y := s.cur_y + 1
    ({ s with cur_y := if cur_y ≥ s.board.height then s.board.height - 1 else cur_y }, [])
  else if c = ord 'k' then
    let cur_y := s.cur_y - 1
    ({ s with cur_y := if cur_y < 0 then 0 else cur_y }, [])
  else if c = ord 'l' then
    let cur_x := s.cur_x + 1
    ({ s with cur_x := if cur_x ≥ s.board.width then s.board.width - 1 else cur_x }, [])
  else if c = ord 'f' then
    ({ s with board := env.board_toggle_flagged s.board s.cur_x s.cur_y },
      [Call.board_toggle_flagged s.cur_x s.cur_y])
  else if c = ord 'x' then
    let turned := env.board_turn_tiles s.board s.cur_x s.cur_y
    let s1 := { s with board := turned.1 }
    if turned.2 &&& env.masks.TILE_MINE ≠ 0 then
      let r := on_mine env g s1 (env.proc_get_random s1.world)
      (r.1, Call.board_turn_tiles s.cur_x s.cur_y :: r.2)
    else
      (s1, [Call.board_turn_tiles s.cur_x s.cur_y])
  else
    (s, [])

/-! ## The game loop (lines 37-159) -/

/-- The `while (run)` loop; `inputs` are the keys that `getch` returns.  When the keys
are used up the loop is waiting in `getch`. -/
def game_loop {G W K : Type} (env : Env G W K) (g : Globals) :
    List Int → Game G W → Game G W × List Call
  | [], s => if s.run then (s, render env g s) else (s, [])
  | c :: cs, s =>
    if s.run then
      let r := handle_key env g c s
      let rest := game_loop env g cs r.1
      (rest.1, render env g s ++ r.2 ++ rest.2)
    else
      (s, [])

/-- The locals of `main` when the loop is entered (lines 37-43): cursor (0, 0), the board
that `board_init` made, `run` true. -/
def initial_game {G W : Type} (board : board_t G) (world : W) : Game G W :=
  { cur_x := 0, cur_y := 0, board := board, run := true, world := world }

/-! ## Observations on the recorded calls -/

/-- The call is a call of the terminator `proc_kill`. -/
def Call.is_proc_kill : Call → Bool
  | Call.proc_kill _ _ => true
  | _ => false

/-- The call is a `mvprintw`, which puts a message on the screen. -/
def Call.is_mvprintw : Call → Bool
  | Call.mvprintw _ _ _ _ => true
  | _ => false

/-- The cursor is on the board. -/
def cursor_in_bounds {G W : Type} (s : Game G W) : Prop :=
  0 ≤ s.cur_x ∧ s.cur_x < s.board.width ∧ 0 ≤ s.cur_y ∧ s.cur_y < s.board.height

/-- The coordinates of a call to the board engine are on a board of the given size;
calls to anything else satisfy this trivially. -/
def Call.coords_in_bounds (width height : Int) : Call → Prop
  | Call.board_get_tile x y => 0 ≤ x ∧ x < width ∧ 0 ≤ y ∧ y < height
  | Call.board_get_adjacent_mine_count x y => 0 ≤ x ∧ x < width ∧ 0 ≤ y ∧ y < height
  | Call.board_toggle_flagged x y => 0 ≤ x ∧ x < width ∧ 0 ≤ y ∧ y < height
  | Call.board_turn_tiles x y => 0 ≤ x ∧ x < width ∧ 0 ≤ y ∧ y < height
  | _ => True

/-- Modelled from the spec: the board engine (`board.c`) is not among the sources.  The
spec gives a board a grid of `width` by `height` tiles allocated once by `initialize`, and
no operation that resizes it: `toggle_flag` and `reveal` leave `width` and `height` as they
are. -/
def Env.keeps_dimensions {G W K : Type} (env : Env G W K) : Prop :=
  ∀ (b : board_t G) (x y : Int),
    (env.board_toggle_flagged b x y).width = b.width ∧
    (env.board_toggle_flagged b x y).height = b.height ∧
    (env.board_turn_tiles b x y).1.width = b.width ∧
    (env.board_turn_tiles b x y).1.height = b.height

/-! ## A concrete set of collaborators, used to evaluate the controller -/

/-- Masks with one bit each. -/
def demoMasks : TileMasks := { TILE_MINE := 1, TILE_TURNED := 2, TILE_FLAG := 4 }

/-- A board engine whose grid is one tile value shared by all cells, a selector that
returns the candidates of a list in order, and a terminator that reports `status`. -/
def demoEnv (status : Int) : Env Nat (List proc_t) Int :=
  { masks := demoMasks
    util_color_get := fun f b => f * 8 + b
    board_get_tile := fun b _ _ => b.cells
    board_get_adjacent_mine_count := fun _ _ _ => 0
    board_toggle_flagged := fun b _ _ => { b with cells := b.cells ^^^ 4 }
    board_turn_tiles := fun b _ _ => ({ b with cells := b.cells ||| 2 }, b.cells ||| 2)
    proc_get_random := fun w => (w.head?, w.tail)
    proc_kill := fun w _ _ => (status, w) }

def demoProc : proc_t := { tgid := 4242, euid := 1000, cmdline := none, cmd := "sleep" }

/-- A 3 x 2 board of unturned mines. -/
def demoBoard : board_t Nat := { width := 3, height := 2, cells := 1 }

/-- The game on `demoBoard` with the cursor at (0, 0). -/
def demoGame (w : List proc_t) : Game Nat (List proc_t) := initial_game demoBoard w

def demoGlobals : Globals := initial_globals

def demoDryRun : Globals := { initial_globals with mode_nokill := 1 }

/-! ## Lemmas on the key handler and the rendering -/

variable {G W K : Type}


theorem handle_key_reveal (env : Env G W K) (g : Globals) (s : Game G W) :
    handle_key env g (ord 'x') s =
      if (env.board_turn_tiles s.board s.cur_x s.cur_y).2 &&& env.masks.TILE_MINE ≠ 0 then
        ((on_mine env g { s with board := (env.board_turn_tiles s.board s.cur_x s.cur_y).1 }
            (env.proc_get_random s.world)).1,
          Call.board_turn_tiles s.cur_x s.cur_y ::
            (on_mine env g { s with board := (env.board_turn_tiles s.board s.cur_x s.cur_y).1 }
              (env.proc_get_random s.world)).2)
      else
        ({ s with board := (env.board_turn_tiles s.board s.cur_x s.cur_y).1 },
          [Call.board_turn_tiles s.cur_x s.cur_y]) := by
  unfold handle_key
  rw [if_neg (by decide), if_neg (by decide), if_neg (by decide), if_neg (by decide),
    if_neg (by decide), if_neg (by decide), if_pos rfl]

theorem on_mine_kill_mem (env : Env G W K) (g : Globals) (s : Game G W)
    (sel : Option proc_t × W) (p : proc_t) (sig : Int)
    (h : Call.proc_kill p sig ∈ (on_mine env g s sel).2) :
    g.mode_nokill = 0 ∧ sel.1 = some p ∧ sig = g.kill_signal := by
  rcases sel with ⟨_ | q, w⟩
  · simp [on_mine] at h
  · by_cases hk : g.mode_nokill = 0
    · simp [on_mine, hk] at h
      simp [hk, h]
    · simp [on_mine, hk] at h

theorem handle_key_kill_mem (env : Env G W K) (g : Globals) (c : Int) (s : Game G W)
    (p : proc_t) (sig : Int) (h : Call.proc_kill p sig ∈ (handle_key env g c s).2) :
    c = ord 'x' ∧ (env.board_turn_tiles s.board s.cur_x s.cur_y).2 &&& env.masks.TILE_MINE ≠ 0
      ∧ g.mode_nokill = 0 ∧ (env.proc_get_random s.world).1 = some p ∧ sig = g.kill_signal := by
  unfold handle_key at h
  split_ifs at h with h1 h2 h3 h4 h5 h6 h7
  all_goals first
    | (simp at h; done)
    | skip
  by_cases hm : (env.board_turn_tiles s.board s.cur_x s.cur_y).2 &&& env.masks.TILE_MINE ≠ 0
  · rw [if_pos hm] at h
    simp only [List.mem_cons, false_or, reduceCtorEq] at h
    exact ⟨h7, hm, on_mine_kill_mem env g _ _ p sig h⟩
  · rw [if_neg hm] at h
    simp at h

theorem render_cell_kill_free (env : Env G W K) (s : Game G W) (x y : Int) (p : proc_t)
    (sig : Int) : Call.proc_kill p sig ∉ render_cell env s x y := by
  simp only [render_cell]
  split_ifs <;> simp

theorem render_kill_free (env : Env G W K) (g : Globals) (s : Game G W) (p : proc_t)
    (sig : Int) : Call.proc_kill p sig ∉ render env g s := by
  unfold render render_board render_status
  simp only [List.mem_append, List.mem_flatMap, not_or, not_exists, not_and]
  refine ⟨⟨?_, ?_⟩, by simp⟩
  · intro x _ y _
    exact render_cell_kill_free env s x y p sig
  · split_ifs <;> simp


theorem game_loop_kill_mem (env : Env G W K) (g : Globals) (inputs : List Int) (s : Game G W)
    (p : proc_t) (sig : Int) (h : Call.proc_kill p sig ∈ (game_loop env g inputs s).2) :
    g.mode_nokill = 0 ∧ sig = g.kill_signal := by
  induction inputs generalizing s with
  | nil =>
    unfold game_loop at h
    split_ifs at h
    · exact absurd h (render_kill_free env g s p sig)
    · simp at h
  | cons c cs ih =>
    unfold game_loop at h
    split_ifs at h
    · simp only [List.mem_append] at h
      rcases h with (h | h) | h
      · exact absurd h (render_kill_free env g s p sig)
      · have hk := handle_key_kill_mem env g c s p sig h
        exact ⟨hk.2.2.1, hk.2.2.2.2⟩
      · exact ih _ h
    · simp at h

theorem parse_opt_kill_signal (geteuid : Nat) (g g1 : Globals) (c : Int)
    (h : parse_opt geteuid g c = Except.ok g1) :
    g1.kill_signal = if c = ord 'k' then SIGKILL else g.kill_signal := by
  unfold parse_opt at h
  split_ifs at h with h1 h2 h3 h4 h5 h6 <;> first
    | (cases h; subst_vars; simp; done)
    | (cases h; subst_vars; rw [if_neg (by decide)])
    | (cases h; simp [*])

theorem parse_cli_kill_signal (geteuid : Nat) (opts : List Int) (g0 g : Globals)
    (h : parse_cli geteuid opts g0 = Except.ok g) :
    g.kill_signal = if ord 'k' ∈ opts then SIGKILL else g0.kill_signal := by
  induction opts generalizing g0 with
  | nil =>
    unfold parse_cli at h
    cases h
    simp
  | cons c cs ih =>
    unfold parse_cli at h
    cases hc : parse_opt geteuid g0 c with
    | error code => rw [hc] at h; cases h
    | ok g1 =>
      rw [hc] at h
      have h1 := ih g1 h
      have h2 := parse_opt_kill_signal geteuid g0 g1 c hc
      rw [h1, h2]
      by_cases hk : ord 'k' ∈ cs
      · simp [hk]
      · by_cases hc2 : c = ord 'k'
        · simp [hc2]
        · have : ¬ (ord 'k' = c) := fun e => hc2 e.symm
          simp [hk, hc2, this]

/-- C1: in dry-run mode (`mode_nokill` set) the terminator is never called.  Handling a
reveal key `'x'` records no `proc_kill` call for any board, cursor, world, candidate and
signal, also when the tile is a mine and a candidate was selected; the same holds for the
calls of the whole game loop on any sequence of keys. -/
theorem dry_run_never_calls_proc_kill (env : Env G W K) (g : Globals) (s : Game G W)
    (hdry : g.mode_nokill ≠ 0) :
    (∀ p sig, Call.proc_kill p sig ∉ (handle_key env g (ord 'x') s).2) ∧
    (∀ inputs p sig, Call.proc_kill p sig ∉ (game_loop env g inputs s).2) := by
  refine ⟨fun p sig h => ?_, fun inputs p sig h => ?_⟩
  · exact hdry (handle_key_kill_mem env g _ s p sig h).2.2.1
  · exact hdry (game_loop_kill_mem env g inputs s p sig h).1

theorem dry_run_never_calls_proc_kill_witness :
    demoDryRun.mode_nokill ≠ 0 ∧
    ((demoEnv 0).board_turn_tiles (demoGame [demoProc]).board 0 0).2
      &&& (demoEnv 0).masks.TILE_MINE ≠ 0 ∧
    ((demoEnv 0).proc_get_random (demoGame [demoProc]).world).1 = some demoProc ∧
    Call.proc_kill demoProc SIGINT ∉
      (handle_key (demoEnv 0) demoDryRun (ord 'x') (demoGame [demoProc])).2 ∧
    Call.proc_kill demoProc SIGINT ∉
      (game_loop (demoEnv 0) demoDryRun [ord 'x', ord 'l', ord 'x'] (demoGame [demoProc])).2 :=
  ⟨by decide, by decide, by decide,
    (dry_run_never_calls_proc_kill (demoEnv 0) demoDryRun (demoGame [demoProc])
      (by decide)).1 demoProc SIGINT,
    (dry_run_never_calls_proc_kill (demoEnv 0) demoDryRun (demoGame [demoProc])
      (by decide)).2 [ord 'x', ord 'l', ord 'x'] demoProc SIGINT⟩

theorem on_mine_select_mem (env : Env G W K) (g : Globals) (s : Game G W)
    (sel : Option proc_t × W) : Call.proc_get_random ∈ (on_mine env g s sel).2 := by
  rcases sel with ⟨_ | q, w⟩
  · simp [on_mine]
  · by_cases hk : g.mode_nokill = 0 <;> simp [on_mine, hk]

theorem handle_key_select_mem (env : Env G W K) (g : Globals) (c : Int) (s : Game G W) :
    Call.proc_get_random ∈ (handle_key env g c s).2 ↔
      (c = ord 'x' ∧
        (env.board_turn_tiles s.board s.cur_x s.cur_y).2 &&& env.masks.TILE_MINE ≠ 0) := by
  constructor
  · intro h
    unfold handle_key at h
    split_ifs at h with h1 h2 h3 h4 h5 h6 h7
    all_goals first
      | (simp at h; done)
      | skip
    by_cases hm : (env.board_turn_tiles s.board s.cur_x s.cur_y).2 &&& env.masks.TILE_MINE ≠ 0
    · exact ⟨h7, hm⟩
    · rw [if_neg hm] at h
      simp at h
  · rintro ⟨hc, hm⟩
    subst hc
    rw [handle_key_reveal, if_pos hm]
    exact List.mem_cons_of_mem _ (on_mine_select_mem env g _ _)

theorem handle_key_world_frame (env : Env G W K) (g : Globals) (c : Int) (s : Game G W)
    (h : ¬ (c = ord 'x' ∧
      (env.board_turn_tiles s.board s.cur_x s.cur_y).2 &&& env.masks.TILE_MINE ≠ 0)) :
    (handle_key env g c s).1.world = s.world := by
  unfold handle_key
  split_ifs with h1 h2 h3 h4 h5 h6 h7
  all_goals first
    | rfl
    | skip
  by_cases hm : (env.board_turn_tiles s.board s.cur_x s.cur_y).2 &&& env.masks.TILE_MINE ≠ 0
  · exact absurd ⟨h7, hm⟩ h
  · rw [if_neg hm]

theorem on_mine_kill_of_candidate (env : Env G W K) (g : Globals) (s : Game G W)
    (p : proc_t) (w : W) (hlive : g.mode_nokill = 0) :
    Call.proc_kill p g.kill_signal ∈ (on_mine env g s (some p, w)).2 := by
  simp [on_mine, hlive]

/-- C2, counterexample: in dry-run mode a reveal `'x'` uncovers a mine and the selector is
called and returns a candidate, yet `proc_kill` is not called; so "`proc_kill` is called if
and only if the key is a reveal and the tile is a mine" fails. -/
theorem mine_uncovered_without_proc_kill :
    Call.proc_get_random ∈
      (handle_key (demoEnv 0) demoDryRun (ord 'x') (demoGame [demoProc])).2 ∧
    ¬ ((∃ p sig, Call.proc_kill p sig ∈
          (handle_key (demoEnv 0) demoDryRun (ord 'x') (demoGame [demoProc])).2) ↔
        (ord 'x' = ord 'x' ∧
          ((demoEnv 0).board_turn_tiles (demoGame [demoProc]).board
              (demoGame [demoProc]).cur_x (demoGame [demoProc]).cur_y).2
            &&& (demoEnv 0).masks.TILE_MINE ≠ 0)) := by
  refine ⟨by decide, fun h => ?_⟩
  obtain ⟨p, sig, hmem⟩ := h.2 ⟨rfl, by decide⟩
  have hk := handle_key_kill_mem (demoEnv 0) demoDryRun (ord 'x') (demoGame [demoProc])
    p sig hmem
  exact absurd hk.2.2.1 (by decide)

/-- C2, amended: for every key `c`, the selector `proc_get_random` is called if and only if
`c` is the reveal key `'x'` and the tile value returned by `board_turn_tiles` at the cursor
has the `TILE_MINE` bit set.  The terminator `proc_kill` is called if and only if, in
addition, the selector returns a candidate and dry-run mode is off; it is then called on
that candidate with `kill_signal`.  For every other key, and for a reveal of a tile that is
not a mine, the handler calls neither of them and leaves the outside world as it was. -/
theorem selector_and_terminator_call_conditions (env : Env G W K) (g : Globals) (c : Int)
    (s : Game G W) :
    (Call.proc_get_random ∈ (handle_key env g c s).2 ↔
      (c = ord 'x' ∧
        (env.board_turn_tiles s.board s.cur_x s.cur_y).2 &&& env.masks.TILE_MINE ≠ 0)) ∧
    (∀ p sig, Call.proc_kill p sig ∈ (handle_key env g c s).2 ↔
      (c = ord 'x' ∧
        (env.board_turn_tiles s.board s.cur_x s.cur_y).2 &&& env.masks.TILE_MINE ≠ 0 ∧
        (env.proc_get_random s.world).1 = some p ∧
        g.mode_nokill = 0 ∧ sig = g.kill_signal)) ∧
    (¬ (c = ord 'x' ∧
        (env.board_turn_tiles s.board s.cur_x s.cur_y).2 &&& env.masks.TILE_MINE ≠ 0) →
      Call.proc_get_random ∉ (handle_key env g c s).2 ∧
      (∀ p sig, Call.proc_kill p sig ∉ (handle_key env g c s).2) ∧
      (handle_key env g c s).1.world = s.world) := by
  refine ⟨handle_key_select_mem env g c s, fun p sig => ⟨fun h => ?_, ?_⟩,
    fun hn => ⟨?_, ?_, ?_⟩⟩
  · have hk := handle_key_kill_mem env g c s p sig h
    exact ⟨hk.1, hk.2.1, hk.2.2.2.1, hk.2.2.1, hk.2.2.2.2⟩
  · rintro ⟨hc, hm, hsel, hlive, hsig⟩
    subst hc
    subst hsig
    rw [handle_key_reveal, if_pos hm]
    refine List.mem_cons_of_mem _ ?_
    have hpair : env.proc_get_random s.world = (some p, (env.proc_get_random s.world).2) :=
      Prod.ext hsel rfl
    rw [hpair]
    exact on_mine_kill_of_candidate env g _ p _ hlive
  · exact fun h => hn ((handle_key_select_mem env g c s).1 h)
  · intro p sig h
    have hk := handle_key_kill_mem env g c s p sig h
    exact hn ⟨hk.1, hk.2.1⟩
  · exact handle_key_world_frame env g c s hn

/-- C3: when a reveal uncovers a mine, the selector returns the candidate `p` and dry-run
mode is off, `proc_kill` is called exactly once, on `p` and with the signal `kill_signal`,
and the world after the key is the one `proc_kill` leaves.  Whenever `parse_cli` returns,
`kill_signal` is `SIGKILL` if the option value `'k'` was among those parsed and `SIGINT`
otherwise. -/
theorem mine_reveal_kills_selected_candidate (env : Env G W K) (g : Globals) (s : Game G W)
    (p : proc_t) (w : W)
    (hmine : (env.board_turn_tiles s.board s.cur_x s.cur_y).2 &&& env.masks.TILE_MINE ≠ 0)
    (hsel : env.proc_get_random s.world = (some p, w))
    (hlive : g.mode_nokill = 0) :
    (handle_key env g (ord 'x') s).2.filter Call.is_proc_kill
        = [Call.proc_kill p g.kill_signal] ∧
    (handle_key env g (ord 'x') s).1.world = (env.proc_kill w p g.kill_signal).2 ∧
    (∀ (geteuid : Nat) (opts : List Int) (g1 : Globals),
      parse_cli geteuid opts initial_globals = Except.ok g1 →
        g1.kill_signal = if ord 'k' ∈ opts then SIGKILL else SIGINT) := by
  refine ⟨?_, ?_, fun geteuid opts g1 h => parse_cli_kill_signal geteuid opts _ g1 h⟩
  · rw [handle_key_reveal, if_pos hmine, hsel]
    simp [on_mine, hlive, List.filter, Call.is_proc_kill]
  · rw [handle_key_reveal, if_pos hmine, hsel]
    simp [on_mine, hlive]

theorem mine_reveal_kills_selected_candidate_witness :
    (handle_key (demoEnv 0) demoGlobals (ord 'x') (demoGame [demoProc])).2.filter
        Call.is_proc_kill = [Call.proc_kill demoProc SIGINT] ∧
    (handle_key (demoEnv 0) demoGlobals (ord 'x') (demoGame [demoProc])).1.world = [] ∧
    parse_cli 1000 [ord 't', ord 'k'] initial_globals
      = Except.ok { mode_initonly := 0, mode_nokill := 1, mode_system := 0, kill_signal := 9 } ∧
    (9 : Int) = if ord 'k' ∈ [ord 't', ord 'k'] then SIGKILL else SIGINT :=
  have h := mine_reveal_kills_selected_candidate (demoEnv 0) demoGlobals
    (demoGame [demoProc]) demoProc [] (by decide) rfl (by decide)
  ⟨h.1, h.2.1, rfl, h.2.2 1000 [ord 't', ord 'k'] _ rfl⟩

/-- C5: "no matching candidate" is a normal outcome.  When a reveal uncovers a mine and the
selector returns no candidate, the calls of the handler are exactly `board_turn_tiles`,
`proc_get_random` and one `mvprintw` of "Out of processes to kill!" below the board: the
terminator is not called and nothing is read from a candidate.  The run flag and the cursor
are unchanged, so a running loop keeps running. -/
theorem no_candidate_is_reported_not_fatal (env : Env G W K) (g : Globals) (s : Game G W)
    (w : W)
    (hmine : (env.board_turn_tiles s.board s.cur_x s.cur_y).2 &&& env.masks.TILE_MINE ≠ 0)
    (hnone : env.proc_get_random s.world = (none, w)) :
    (handle_key env g (ord 'x') s).2 =
      [Call.board_turn_tiles s.cur_x s.cur_y, Call.proc_get_random,
       Call.mvprintw ((env.board_turn_tiles s.board s.cur_x s.cur_y).1.height + 1) 2
         "Out of processes to kill!" []] ∧
    (∀ p sig, Call.proc_kill p sig ∉ (handle_key env g (ord 'x') s).2) ∧
    (handle_key env g (ord 'x') s).1.run = s.run ∧
    (handle_key env g (ord 'x') s).1.cur_x = s.cur_x ∧
    (handle_key env g (ord 'x') s).1.cur_y = s.cur_y ∧
    (handle_key env g (ord 'x') s).1.world = w ∧
    (∀ rest, s.run = true →
      (game_loop env g (ord 'x' :: rest) s).1
        = (game_loop env g rest (handle_key env g (ord 'x') s).1).1) := by
  refine ⟨?_, ?_, ?_, ?_, ?_, ?_, ?_⟩
  · rw [handle_key_reveal, if_pos hmine, hnone]
    simp [on_mine]
  · intro p sig h
    have hk := handle_key_kill_mem env g _ s p sig h
    rw [hnone] at hk
    simp at hk
  all_goals first
    | (rw [handle_key_reveal, if_pos hmine, hnone]; simp [on_mine]; done)
    | skip
  intro rest hrun
  rw [game_loop, if_pos hrun]

theorem no_candidate_is_reported_not_fatal_witness :
    (handle_key (demoEnv 0) demoGlobals (ord 'x') (demoGame [])).2 =
      [Call.board_turn_tiles 0 0, Call.proc_get_random,
       Call.mvprintw 3 2 "Out of processes to kill!" []] ∧
    (handle_key (demoEnv 0) demoGlobals (ord 'x') (demoGame [])).1.run = true :=
  have h := no_candidate_is_reported_not_fatal (demoEnv 0) demoGlobals (demoGame []) []
    (by decide) rfl
  ⟨h.1, h.2.2.1⟩

/-- C6: the secondary action never rolls back the reveal.  For every reveal, and for every
selector `sel` and terminator `kill` put in place of the ones of `env`, the board after the
key is exactly the board that `board_turn_tiles` produced at the cursor, and the cursor has
not moved; so the tile that `board_get_tile` reports at the cursor is the one
`board_turn_tiles` left there. -/
theorem reveal_is_not_rolled_back (env : Env G W K) (g : Globals) (s : Game G W)
    (sel : W → Option proc_t × W) (kill : W → proc_t → Int → K × W) :
    (handle_key { env with proc_get_random := sel, proc_kill := kill } g (ord 'x') s).1.board
        = (env.board_turn_tiles s.board s.cur_x s.cur_y).1 ∧
    (handle_key { env with proc_get_random := sel, proc_kill := kill } g (ord 'x') s).1.cur_x
        = s.cur_x ∧
    (handle_key { env with proc_get_random := sel, proc_kill := kill } g (ord 'x') s).1.cur_y
        = s.cur_y ∧
    env.board_get_tile
        (handle_key { env with proc_get_random := sel, proc_kill := kill } g (ord 'x') s).1.board
        s.cur_x s.cur_y
      = env.board_get_tile (env.board_turn_tiles s.board s.cur_x s.cur_y).1 s.cur_x s.cur_y := by
  have key : (handle_key { env with proc_get_random := sel, proc_kill := kill } g
        (ord 'x') s).1.board = (env.board_turn_tiles s.board s.cur_x s.cur_y).1 ∧
      (handle_key { env with proc_get_random := sel, proc_kill := kill } g (ord 'x') s).1.cur_x
        = s.cur_x ∧
      (handle_key { env with proc_get_random := sel, proc_kill := kill } g (ord 'x') s).1.cur_y
        = s.cur_y := by
    rw [handle_key_reveal]
    by_cases hm : (env.board_turn_tiles s.board s.cur_x s.cur_y).2 &&& env.masks.TILE_MINE ≠ 0
    · rw [if_pos hm]
      rcases hs : sel s.world with ⟨_ | q, w⟩
      · simp [on_mine, hs]
      · by_cases hk : g.mode_nokill = 0 <;> simp [on_mine, hs, hk]
    · rw [if_neg hm]
      simp
  exact ⟨key.1, key.2.1, key.2.2, by rw [key.1]⟩

/-- C8: no action outcome aborts the game loop.  While the loop runs, the run flag is false
after a key is handled if and only if the key is the quit key `'q'`, whatever the board
engine, the selector and the terminator do or report. -/
theorem only_quit_stops_the_loop (env : Env G W K) (g : Globals) (c : Int) (s : Game G W)
    (hrun : s.run = true) :
    ((handle_key env g c s).1.run = false ↔ c = ord 'q') ∧
    (c ≠ ord 'q' → (handle_key env g c s).1.run = true) := by
  have key : c ≠ ord 'q' → (handle_key env g c s).1.run = s.run := by
    intro hq
    by_cases hx : c = ord 'x'
    · subst hx
      rw [handle_key_reveal]
      by_cases hm : (env.board_turn_tiles s.board s.cur_x s.cur_y).2
          &&& env.masks.TILE_MINE ≠ 0
      · rw [if_pos hm]
        rcases hs : env.proc_get_random s.world with ⟨_ | q, w⟩
        · simp [on_mine, hs]
        · by_cases hk : g.mode_nokill = 0 <;> simp [on_mine, hs, hk]
      · rw [if_neg hm]
    · unfold handle_key
      split_ifs <;> first
        | rfl
        | contradiction
  refine ⟨⟨fun h => ?_, fun h => ?_⟩, fun hq => ?_⟩
  · by_contra hq
    rw [key hq, hrun] at h
    cases h
  · subst h
    simp [handle_key]
  · rw [key hq, hrun]

theorem only_quit_stops_the_loop_witness :
    (demoGame [demoProc]).run = true ∧
    (handle_key (demoEnv (-1)) demoGlobals (ord 'x') (demoGame [demoProc])).1.run = true ∧
    ((handle_key (demoEnv (-1)) demoGlobals (ord 'q') (demoGame [demoProc])).1.run = false
      ↔ ord 'q' = ord 'q') :=
  ⟨rfl,
    (only_quit_stops_the_loop (demoEnv (-1)) demoGlobals (ord 'x') (demoGame [demoProc])
      rfl).2 (by decide),
    (only_quit_stops_the_loop (demoEnv (-1)) demoGlobals (ord 'q') (demoGame [demoProc])
      rfl).1⟩

/-- C4: the filter predicate implements the three policies.  With system mode set every
process is accepted, whatever the hardcore flag is; otherwise with hardcore mode set a
process is accepted exactly when its process id `tgid` is 1; otherwise it is accepted
exactly when its effective user id is the one `geteuid` returns. -/
theorem procfilter_three_policies (g : Globals) (geteuid : Nat) (p : proc_t) :
    (g.mode_system ≠ 0 → procfilter g geteuid p ≠ 0) ∧
    (g.mode_system = 0 → g.mode_initonly ≠ 0 → (procfilter g geteuid p ≠ 0 ↔ p.tgid = 1)) ∧
    (g.mode_system = 0 → g.mode_initonly = 0 →
      (procfilter g geteuid p ≠ 0 ↔ p.euid = geteuid)) := by
  refine ⟨fun hs => ?_, fun hs hi => ?_, fun hs hi => ?_⟩
  · simp [procfilter, hs]
  · by_cases ht : p.tgid = 1 <;> simp [procfilter, hs, hi, ht]
  · by_cases he : p.euid = geteuid <;> simp [procfilter, hs, hi, he]

theorem procfilter_three_policies_witness :
    procfilter { initial_globals with mode_system := 1, mode_initonly := 1 } 0 demoProc ≠ 0 ∧
    (procfilter { initial_globals with mode_initonly := 1 } 0 demoProc ≠ 0
      ↔ demoProc.tgid = 1) ∧
    (procfilter initial_globals 1000 demoProc ≠ 0 ↔ demoProc.euid = 1000) :=
  ⟨(procfilter_three_policies { initial_globals with mode_system := 1, mode_initonly := 1 }
      0 demoProc).1 (by decide),
    (procfilter_three_policies { initial_globals with mode_initonly := 1 } 0 demoProc).2.1
      (by decide) (by decide),
    (procfilter_three_policies initial_globals 1000 demoProc).2.2 (by decide) (by decide)⟩

/-- C10: the display of an unturned tile leaks nothing about mines.  Two tile values with
the `TILE_TURNED` bit clear and the same truth value of the `TILE_FLAG` bit get, at the same
cell and cursor position, the same symbol, foreground and background, whatever their
`TILE_MINE` bits and the adjacent mine counts are, and the symbol is `'#'`.  A tile that is
shown as the mine symbol `'X'` or as a digit has the `TILE_TURNED` bit set. -/
theorem unturned_tile_look_hides_mines (m : TileMasks) (t1 t2 : Nat)
    (a1 a2 x y cur_x cur_y : Int)
    (h1 : t1 &&& m.TILE_TURNED = 0) (h2 : t2 &&& m.TILE_TURNED = 0)
    (hflag : t1 &&& m.TILE_FLAG ≠ 0 ↔ t2 &&& m.TILE_FLAG ≠ 0) :
    cell_look m t1 a1 x y cur_x cur_y = cell_look m t2 a2 x y cur_x cur_y ∧
    (cell_look m t1 a1 x y cur_x cur_y).1 = ord '#' ∧
    (∀ (t : Nat) (a : Int),
      ((cell_look m t a x y cur_x cur_y).1 = ord 'X' ∨
        (ord '0' ≤ (cell_look m t a x y cur_x cur_y).1 ∧
          (cell_look m t a x y cur_x cur_y).1 ≤ ord '9')) →
      t &&& m.TILE_TURNED ≠ 0) := by
  refine ⟨?_, ?_, ?_⟩
  · by_cases hf : t1 &&& m.TILE_FLAG ≠ 0
    · have hf2 := hflag.1 hf
      simp only [cell_look, h1, h2, ne_eq, not_true_eq_false, not_false_eq_true, if_true, hf,
        hf2]
    · have hf2 : ¬ (t2 &&& m.TILE_FLAG ≠ 0) := fun h => hf (hflag.2 h)
      simp only [cell_look, h1, h2, ne_eq, not_true_eq_false, not_false_eq_true, if_true, hf,
        hf2]
  · simp only [cell_look, h1, ne_eq, not_true_eq_false, not_false_eq_true, if_true]
    split_ifs <;> rfl
  · intro t a h ht
    have hs : (cell_look m t a x y cur_x cur_y).1 = ord '#' := by
      simp only [cell_look, ht, ne_eq, not_true_eq_false, not_false_eq_true, if_true]
      split_ifs <;> rfl
    rw [hs] at h
    revert h
    decide

theorem unturned_tile_look_hides_mines_witness :
    cell_look demoMasks 1 3 0 0 0 0 = cell_look demoMasks 0 0 0 0 0 0 ∧
    (cell_look demoMasks 1 3 0 0 0 0).1 = ord '#' :=
  have h := unturned_tile_look_hides_mines demoMasks 1 0 3 0 0 0 0 0
    (by decide) (by decide) (by decide)
  ⟨h.1, h.2.1⟩

/-- C9, counterexample: on the same reveal of a mine with the same candidate, a terminator
that reports a failure (status -1) and one that reports success (status 0) are both called,
and the messages put on the screen are the same. -/
theorem permission_failure_shown_like_success :
    ((demoEnv (-1)).proc_kill [] demoProc SIGINT).1 = -1 ∧
    ((demoEnv 0).proc_kill [] demoProc SIGINT).1 = 0 ∧
    Call.proc_kill demoProc SIGINT ∈
      (handle_key (demoEnv (-1)) demoGlobals (ord 'x') (demoGame [demoProc])).2 ∧
    Call.proc_kill demoProc SIGINT ∈
      (handle_key (demoEnv 0) demoGlobals (ord 'x') (demoGame [demoProc])).2 ∧
    ¬ ((handle_key (demoEnv (-1)) demoGlobals (ord 'x') (demoGame [demoProc])).2.filter
          Call.is_mvprintw
        ≠ (handle_key (demoEnv 0) demoGlobals (ord 'x') (demoGame [demoProc])).2.filter
          Call.is_mvprintw) := by
  decide

/-- C9, amended: what `proc_kill` reports is not looked at.  When a reveal uncovers a mine,
the selector returns the candidate `p` and dry-run mode is off, then for every terminator
`kill` the messages put on the screen are "Too bad!" and "Killing %d, %s" with the process
id and command of `p`, they are printed before `proc_kill` is called, the calls are the same
as with any other terminator `kill2`, and the run flag is unchanged, so the game
continues. -/
theorem proc_kill_report_is_ignored (env : Env G W K) (g : Globals) (s : Game G W)
    (p : proc_t) (w : W) (kill kill2 : W → proc_t → Int → K × W)
    (hmine : (env.board_turn_tiles s.board s.cur_x s.cur_y).2 &&& env.masks.TILE_MINE ≠ 0)
    (hsel : env.proc_get_random s.world = (some p, w))
    (hlive : g.mode_nokill = 0) :
    (handle_key { env with proc_kill := kill } g (ord 'x') s).2 =
      [Call.board_turn_tiles s.cur_x s.cur_y, Call.proc_get_random, Call.erase,
       Call.util_color_get COLOR_RED COLOR_BLACK,
       Call.attron (env.util_color_get COLOR_RED COLOR_BLACK),
       Call.mvprintw ((env.board_turn_tiles s.board s.cur_x s.cur_y).1.height + 1) 2
         "Too bad!" [],
       Call.mvprintw ((env.board_turn_tiles s.board s.cur_x s.cur_y).1.height + 2) 2
         "Killing %d, %s"
         [PrintArg.int p.tgid,
          PrintArg.str (match p.cmdline with
            | some v => v.head?
            | none => some p.cmd)],
       Call.attroff (env.util_color_get COLOR_RED COLOR_BLACK),
       Call.proc_kill p g.kill_signal] ∧
    (handle_key { env with proc_kill := kill } g (ord 'x') s).2
      = (handle_key { env with proc_kill := kill2 } g (ord 'x') s).2 ∧
    (handle_key { env with proc_kill := kill } g (ord 'x') s).1.run = s.run := by
  have e : ∀ k : W → proc_t → Int → K × W,
      (handle_key { env with proc_kill := k } g (ord 'x') s).2 =
      [Call.board_turn_tiles s.cur_x s.cur_y, Call.proc_get_random, Call.erase,
       Call.util_color_get COLOR_RED COLOR_BLACK,
       Call.attron (env.util_color_get COLOR_RED COLOR_BLACK),
       Call.mvprintw ((env.board_turn_tiles s.board s.cur_x s.cur_y).1.height + 1) 2
         "Too bad!" [],
       Call.mvprintw ((env.board_turn_tiles s.board s.cur_x s.cur_y).1.height + 2) 2
         "Killing %d, %s"
         [PrintArg.int p.tgid,
          PrintArg.str (match p.cmdline with
            | some v => v.head?
            | none => some p.cmd)],
       Call.attroff (env.util_color_get COLOR_RED COLOR_BLACK),
       Call.proc_kill p g.kill_signal] := by
    intro k
    rw [handle_key_reveal, if_pos hmine]
    simp only [hsel, on_mine, hlive, ne_eq, not_true_eq_false, not_false_eq_true, if_true,
      if_false, List.cons_append, List.nil_append]
  refine ⟨e kill, (e kill).trans (e kill2).symm, ?_⟩
  rw [handle_key_reveal, if_pos hmine]
  simp [hsel, on_mine, hlive]

theorem proc_kill_report_is_ignored_witness :
    (handle_key (demoEnv (-1)) demoGlobals (ord 'x') (demoGame [demoProc])).2 =
      [Call.board_turn_tiles 0 0, Call.proc_get_random, Call.erase,
       Call.util_color_get 1 0, Call.attron 8,
       Call.mvprintw 3 2 "Too bad!" [],
       Call.mvprintw 4 2 "Killing %d, %s" [PrintArg.int 4242, PrintArg.str (some "sleep")],
       Call.attroff 8, Call.proc_kill demoProc 2] ∧
    (handle_key (demoEnv (-1)) demoGlobals (ord 'x') (demoGame [demoProc])).1.run = true :=
  have h := proc_kill_report_is_ignored (demoEnv 0) demoGlobals (demoGame [demoProc])
    demoProc [] (fun w _ _ => (-1, w)) (fun w _ _ => (0, w)) (by decide) rfl (by decide)
  ⟨h.1, h.2.2⟩

theorem mem_upto (n x : Int) : x ∈ upto n ↔ 0 ≤ x ∧ x < n := by
  unfold upto
  simp only [List.mem_map, List.mem_range]
  constructor
  · rintro ⟨a, ha, rfl⟩
    constructor
    · exact Int.ofNat_nonneg a
    · have : (Int.ofNat a) = (a : Int) := rfl
      omega
  · rintro ⟨h0, hn⟩
    refine ⟨x.toNat, by omega, ?_⟩
    have : (Int.ofNat x.toNat) = ((x.toNat : Nat) : Int) := rfl
    omega

theorem render_cell_coords (env : Env G W K) (s : Game G W) (x y wd ht : Int)
    (hx : 0 ≤ x ∧ x < wd) (hy : 0 ≤ y ∧ y < ht) :
    ∀ call ∈ render_cell env s x y, Call.coords_in_bounds wd ht call := by
  simp only [render_cell]
  split_ifs <;> simp [Call.coords_in_bounds, hx, hy]

theorem render_coords (env : Env G W K) (g : Globals) (s : Game G W) :
    ∀ call ∈ render env g s, Call.coords_in_bounds s.board.width s.board.height call := by
  intro call hc
  unfold render render_board render_status at hc
  simp only [List.mem_append, List.mem_flatMap] at hc
  rcases hc with (⟨x, hx, y, hy, hc⟩ | hc) | hc
  · exact render_cell_coords env s x y _ _ ((mem_upto _ _).1 hx) ((mem_upto _ _).1 hy) call hc
  · split_ifs at hc <;> simp only [List.mem_append, List.mem_cons, List.mem_singleton,
      List.not_mem_nil, or_false, false_or] at hc <;> casesm* _ ∨ _ <;> subst_vars <;> trivial
  · simp only [List.mem_cons, List.mem_singleton, List.not_mem_nil, or_false] at hc
    casesm* _ ∨ _ <;> subst_vars <;> trivial

theorem on_mine_frame (env : Env G W K) (g : Globals) (s : Game G W)
    (sel : Option proc_t × W) :
    (on_mine env g s sel).1.cur_x = s.cur_x ∧ (on_mine env g s sel).1.cur_y = s.cur_y ∧
    (on_mine env g s sel).1.board = s.board ∧ (on_mine env g s sel).1.run = s.run := by
  rcases sel with ⟨_ | q, w⟩
  · simp [on_mine]
  · by_cases hk : g.mode_nokill = 0 <;> simp [on_mine, hk]

theorem on_mine_coords (env : Env G W K) (g : Globals) (s : Game G W)
    (sel : Option proc_t × W) (wd ht : Int) :
    ∀ call ∈ (on_mine env g s sel).2, Call.coords_in_bounds wd ht call := by
  rcases sel with ⟨_ | q, w⟩
  · simp [on_mine, Call.coords_in_bounds]
  · by_cases hk : g.mode_nokill = 0 <;> simp [on_mine, hk, Call.coords_in_bounds]

theorem handle_key_bounds (env : Env G W K) (g : Globals) (c : Int) (s : Game G W)
    (hkeep : env.keeps_dimensions) (hw : 1 ≤ s.board.width) (hh : 1 ≤ s.board.height)
    (hin : cursor_in_bounds s) :
    cursor_in_bounds (handle_key env g c s).1 ∧
    (handle_key env g c s).1.board.width = s.board.width ∧
    (handle_key env g c s).1.board.height = s.board.height ∧
    ∀ call ∈ (handle_key env g c s).2,
      Call.coords_in_bounds s.board.width s.board.height call := by
  obtain ⟨hx0, hx1, hy0, hy1⟩ := hin
  obtain ⟨kt1, kt2, kr1, kr2⟩ := hkeep s.board s.cur_x s.cur_y
  by_cases hx : c = ord 'x'
  · subst hx
    rw [handle_key_reveal]
    by_cases hm : (env.board_turn_tiles s.board s.cur_x s.cur_y).2 &&& env.masks.TILE_MINE ≠ 0
    · rw [if_pos hm]
      obtain ⟨f1, f2, f3, f4⟩ := on_mine_frame env g
        { s with board := (env.board_turn_tiles s.board s.cur_x s.cur_y).1 }
        (env.proc_get_random s.world)
      refine ⟨?_, ?_, ?_, ?_⟩
      · simp only [cursor_in_bounds, f1, f2, f3, kr1, kr2]
        exact ⟨hx0, hx1, hy0, hy1⟩
      · simp only [f3, kr1]
      · simp only [f3, kr2]
      · intro call hc
        rcases List.mem_cons.1 hc with h | h
        · subst h
          exact ⟨hx0, hx1, hy0, hy1⟩
        · exact on_mine_coords env g _ _ _ _ call h
    · rw [if_neg hm]
      refine ⟨?_, kr1, kr2, ?_⟩
      · simp only [cursor_in_bounds, kr1, kr2]
        exact ⟨hx0, hx1, hy0, hy1⟩
      · intro call hc
        rw [List.mem_singleton] at hc
        subst hc
        exact ⟨hx0, hx1, hy0, hy1⟩
  · unfold handle_key
    split_ifs
    all_goals first
      | contradiction
      | (refine ⟨?_, rfl, rfl, by simp⟩
         simp only [cursor_in_bounds]
         first
           | exact ⟨hx0, hx1, hy0, hy1⟩
           | (split_ifs <;> omega))
      | (refine ⟨?_, kt1, kt2, ?_⟩
         · simp only [cursor_in_bounds, kt1, kt2]
           exact ⟨hx0, hx1, hy0, hy1⟩
         · intro call hc
           rw [List.mem_singleton] at hc
           subst hc
           exact ⟨hx0, hx1, hy0, hy1⟩)

theorem game_loop_bounds (env : Env G W K) (g : Globals) (inputs : List Int) (s : Game G W)
    (hkeep : env.keeps_dimensions) (hw : 1 ≤ s.board.width) (hh : 1 ≤ s.board.height)
    (hin : cursor_in_bounds s) :
    cursor_in_bounds (game_loop env g inputs s).1 ∧
    (game_loop env g inputs s).1.board.width = s.board.width ∧
    (game_loop env g inputs s).1.board.height = s.board.height ∧
    ∀ call ∈ (game_loop env g inputs s).2,
      Call.coords_in_bounds s.board.width s.board.height call := by
  induction inputs generalizing s with
  | nil =>
    unfold game_loop
    split_ifs
    · exact ⟨hin, rfl, rfl, render_coords env g s⟩
    · exact ⟨hin, rfl, rfl, by simp⟩
  | cons c cs ih =>
    unfold game_loop
    split_ifs
    · obtain ⟨b1, b2, b3, b4⟩ := handle_key_bounds env g c s hkeep hw hh hin
      obtain ⟨i1, i2, i3, i4⟩ := ih (handle_key env g c s).1 (by rw [b2]; exact hw)
        (by rw [b3]; exact hh) b1
      refine ⟨i1, i2.trans b2, i3.trans b3, ?_⟩
      intro call hc
      simp only [List.mem_append] at hc
      rcases hc with (h | h) | h
      · exact render_coords env g s call h
      · exact b4 call h
      · have := i4 call h
        rw [b2, b3] at this
        exact this
    · exact ⟨hin, rfl, rfl, by simp⟩

/-- C7: the controller clamps the cursor before every board call.  On a board of width and
height at least 1 whose dimensions the board engine keeps, starting from cursor (0, 0),
after every sequence of keys the cursor satisfies `0 ≤ cur_x < width` and
`0 ≤ cur_y < height`, and every call of `board_toggle_flagged`, `board_turn_tiles`,
`board_get_tile` and `board_get_adjacent_mine_count` made by the loop has coordinates
within these bounds. -/
theorem cursor_stays_on_board (env : Env G W K) (g : Globals) (inputs : List Int)
    (board : board_t G) (world : W) (hkeep : env.keeps_dimensions)
    (hw : 1 ≤ board.width) (hh : 1 ≤ board.height) :
    (0 ≤ (game_loop env g inputs (initial_game board world)).1.cur_x ∧
      (game_loop env g inputs (initial_game board world)).1.cur_x
        < (game_loop env g inputs (initial_game board world)).1.board.width ∧
      0 ≤ (game_loop env g inputs (initial_game board world)).1.cur_y ∧
      (game_loop env g inputs (initial_game board world)).1.cur_y
        < (game_loop env g inputs (initial_game board world)).1.board.height) ∧
    (game_loop env g inputs (initial_game board world)).1.board.width = board.width ∧
    (game_loop env g inputs (initial_game board world)).1.board.height = board.height ∧
    ∀ call ∈ (game_loop env g inputs (initial_game board world)).2,
      Call.coords_in_bounds board.width board.height call := by
  have hin : cursor_in_bounds (initial_game board world) := by
    simp only [cursor_in_bounds, initial_game]
    omega
  exact game_loop_bounds env g inputs (initial_game board world) hkeep hw hh hin

theorem demoEnv_keeps_dimensions (status : Int) : (demoEnv status).keeps_dimensions :=
  fun _ _ _ => ⟨rfl, rfl, rfl, rfl⟩

theorem cursor_stays_on_board_witness :
    (game_loop (demoEnv 0) demoGlobals [ord 'h', ord 'k', ord 'l', ord 'l', ord 'l', ord 'j',
        ord 'j', ord 'f', ord 'x'] (demoGame [demoProc])).1.cur_x < 3 ∧
    (game_loop (demoEnv 0) demoGlobals [ord 'h', ord 'k', ord 'l', ord 'l', ord 'l', ord 'j',
        ord 'j', ord 'f', ord 'x'] (demoGame [demoProc])).1.cur_y < 2 ∧
    Call.coords_in_bounds 3 2 (Call.board_turn_tiles 2 1) :=
  have h := cursor_stays_on_board (demoEnv 0) demoGlobals [ord 'h', ord 'k', ord 'l', ord 'l',
    ord 'l', ord 'j', ord 'j', ord 'f', ord 'x'] demoBoard [demoProc]
    (demoEnv_keeps_dimensions 0) (by decide) (by decide)
  ⟨h.1.2.1, h.1.2.2.2, h.2.2.2 _ (by decide)⟩

end Procsweeper
